import Mathlib

/-
Shallow embedding of the jira_cli data layer (src/models.rs, src/db.rs) and
page input interpretation (src/ui/pages/mod.rs).

Modelling conventions:
- HashMap String V is embedded as an association list, List (String × V),
  with insert-replaces-key semantics matching std HashMap; all reasoning is
  through lookup, so iteration order is irrelevant.
- Every repository operation follows the load-mutate-persist cycle of the
  source; an operation is a pure function from the persisted DBState to a
  pair (result, persisted DBState afterwards). On an error return the write
  to the backend never happens, so the second component is the input state.
- nanoid is a random id generator; it is embedded as an explicit id
  parameter supplied to the create operations.
- The storage backend of the model always succeeds on read, matching MockDB;
  file system failures are outside the pure embedding.
-/

set_option autoImplicit false

namespace Jira

/-- Status enum of src/models.rs, constructors in source order. -/
inductive Status where
  | InProgress
  | Closed
  | Open
  | Resolved
deriving DecidableEq, Repr

/-- Story struct of src/models.rs. -/
structure Story where
  name : String
  description : String
  status : Status
deriving DecidableEq, Repr

/-- Epic struct of src/models.rs; stories holds ids, not embedded data. -/
structure Epic where
  name : String
  description : String
  status : Status
  stories : List String
deriving DecidableEq, Repr

/-- Epic constructor of src/models.rs: status Open, empty story list. -/
def Epic.new (name description : String) : Epic :=
  { name := name, description := description, status := Status.Open, stories := [] }

/-- Story constructor of src/models.rs: status Open. -/
def Story.new (name description : String) : Story :=
  { name := name, description := description, status := Status.Open }

/-- Association-list embedding of HashMap String V. -/
abbrev AList (α : Type) := List (String × α)

namespace AList

variable {α : Type}

/-- HashMap get: first value stored under the key. -/
def lookup (k : String) : AList α → Option α
  | [] => none
  | (k', v) :: rest => if k' = k then some v else lookup k rest

/-- HashMap contains_key. -/
def contains (k : String) (m : AList α) : Bool :=
  (lookup k m).isSome

/-- HashMap remove: drop every entry stored under the key. -/
def remove (k : String) : AList α → AList α
  | [] => []
  | (k', v) :: rest => if k' = k then remove k rest else (k', v) :: remove k rest

/-- HashMap insert: replace any entry under the key with the new value. -/
def insert (k : String) (v : α) (m : AList α) : AList α :=
  (k, v) :: remove k m

/-- The delete_epic loop: remove every id of the list from the map. -/
def removeAll (ids : List String) (m : AList α) : AList α :=
  ids.foldl (fun acc sid => remove sid acc) m

@[simp]
theorem lookup_nil (k : String) : lookup k ([] : AList α) = none := rfl

@[simp]
theorem lookup_cons (k k' : String) (v : α) (rest : AList α) :
    lookup k ((k', v) :: rest) = if k' = k then some v else lookup k rest := rfl

@[simp]
theorem lookup_remove_self (k : String) (m : AList α) :
    lookup k (remove k m) = none := by
  induction m with
  | nil => rfl
  | cons p rest ih =>
      obtain ⟨k', v⟩ := p
      by_cases h : k' = k
      · simp [remove, h, ih]
      · simp [remove, h, ih]

theorem lookup_remove_ne {j k : String} (h : j ≠ k) (m : AList α) :
    lookup j (remove k m) = lookup j m := by
  have hkj : k ≠ j := fun e => h e.symm
  induction m with
  | nil => rfl
  | cons p rest ih =>
      obtain ⟨k', v⟩ := p
      by_cases hk : k' = k
      · subst hk
        simp [remove, hkj, ih]
      · simp [remove, hk, ih]

@[simp]
theorem lookup_insert_self (k : String) (v : α) (m : AList α) :
    lookup k (insert k v m) = some v := by
  simp [insert]

theorem lookup_insert_ne {j k : String} (h : j ≠ k) (v : α) (m : AList α) :
    lookup j (insert k v m) = lookup j m := by
  have hne : k ≠ j := fun hkj => h hkj.symm
  simp [insert, hne, lookup_remove_ne h]

theorem contains_eq_false_iff (k : String) (m : AList α) :
    contains k m = false ↔ lookup k m = none := by
  simp [contains, Option.isSome]
  cases lookup k m <;> simp

theorem contains_eq_true_iff (k : String) (m : AList α) :
    contains k m = true ↔ ∃ v, lookup k m = some v := by
  simp [contains, Option.isSome]
  cases lookup k m <;> simp

theorem lookup_mem {k : String} {v : α} {m : AList α}
    (h : lookup k m = some v) : (k, v) ∈ m := by
  induction m with
  | nil => simp [lookup] at h
  | cons p rest ih =>
      obtain ⟨k', w⟩ := p
      by_cases hk : k' = k
      · simp [lookup, hk] at h
        subst hk h
        exact List.mem_cons_self _ _
      · simp [lookup, hk] at h
        exact List.mem_cons_of_mem _ (ih h)

theorem lookup_removeAll (ids : List String) (m : AList α) (k : String) :
    lookup k (removeAll ids m) = if k ∈ ids then none else lookup k m := by
  induction ids generalizing m with
  | nil => simp [removeAll]
  | cons x rest ih =>
      have hstep : removeAll (x :: rest) m = removeAll rest (remove x m) := rfl
      rw [hstep, ih]
      by_cases hr : k ∈ rest
      · simp [hr]
      · by_cases hx : k = x
        · simp [hr, hx]
        · simp [hr, hx, lookup_remove_ne hx]

end AList

/-- DBState struct of src/models.rs. -/
structure DBState where
  epics : AList Epic
  stories : AList Story
  last_item_id : String
deriving DecidableEq, Repr

/-- JiraDatabase::read_db — delegates to the backend, which in the pure
model always returns the persisted state. -/
def read_db (st : DBState) : Except String DBState × DBState :=
  (Except.ok st, st)

/-- JiraDatabase::create_epic — rebuilds the epic via Epic::new (dropping
the status and stories of the argument), inserts it under a freshly
generated id, sets last_item_id and persists. -/
def create_epic (st : DBState) (epic : Epic) (id : String) :
    Except String String × DBState :=
  let e := Epic.new epic.name epic.description
  (Except.ok id,
    { st with epics := AList.insert id e st.epics, last_item_id := id })

/-- JiraDatabase::create_story — rebuilds the story via Story::new, fails if
the epic id is absent (before any mutation), otherwise inserts the story,
appends its id to the epic and sets last_item_id. -/
def create_story (st : DBState) (story : Story) (epic_id : String) (id : String) :
    Except String String × DBState :=
  let s := Story.new story.name story.description
  match AList.lookup epic_id st.epics with
  | none => (Except.error s!"Epic with id {epic_id} does not exist.", st)
  | some epic =>
      (Except.ok id,
        { st with
            last_item_id := id,
            stories := AList.insert id s st.stories,
            epics := AList.insert epic_id
              { epic with stories := epic.stories ++ [id] } st.epics })

/-- JiraDatabase::delete_epic — fails if the epic is absent; otherwise
removes every story the epic references from the global mapping, removes
the epic and sets last_item_id to the epic id. -/
def delete_epic (st : DBState) (epic_id : String) :
    Except String Unit × DBState :=
  match AList.lookup epic_id st.epics with
  | none => (Except.error s!"Epic with id {epic_id} does not exist.", st)
  | some epic =>
      (Except.ok (),
        { st with
            stories := AList.removeAll epic.stories st.stories,
            epics := AList.remove epic_id st.epics,
            last_item_id := epic_id })

/-- JiraDatabase::delete_story — fails if the story id is absent globally,
then fails if the epic id is absent; otherwise retains only other ids in
the epic list (a silent no-op when the id is not there), removes the story
globally and sets last_item_id to the story id. -/
def delete_story (st : DBState) (epic_id story_id : String) :
    Except String Unit × DBState :=
  if AList.contains story_id st.stories then
    match AList.lookup epic_id st.epics with
    | none => (Except.error s!"Epic with id {epic_id} does not exist.", st)
    | some epic =>
        (Except.ok (),
          { st with
              epics := AList.insert epic_id
                { epic with stories := epic.stories.filter (fun i => i != story_id) }
                st.epics,
              stories := AList.remove story_id st.stories,
              last_item_id := story_id })
  else
    (Except.error s!"Story with id {story_id} does not exist.", st)

/-- JiraDatabase::update_epic_status. -/
def update_epic_status (st : DBState) (epic_id : String) (status : Status) :
    Except String Unit × DBState :=
  match AList.lookup epic_id st.epics with
  | none => (Except.error s!"Epic with id {epic_id} does not exist.", st)
  | some epic =>
      (Except.ok (),
        { st with epics := AList.insert epic_id { epic with status := status } st.epics })

/-- JiraDatabase::update_story_status. -/
def update_story_status (st : DBState) (story_id : String) (status : Status) :
    Except String Unit × DBState :=
  match AList.lookup story_id st.stories with
  | none => (Except.error s!"Story with id {story_id} does not exist.", st)
  | some story =>
      (Except.ok (),
        { st with stories := AList.insert story_id { story with status := status } st.stories })

/-- JiraDatabase::get_epic — read-only: clones the epic or fails. -/
def get_epic (st : DBState) (epic_id : String) :
    Except String Epic × DBState :=
  match AList.lookup epic_id st.epics with
  | none => (Except.error s!"Epic with id {epic_id} does not exist.", st)
  | some epic => (Except.ok epic, st)

/-- JiraDatabase::get_epic_story — fails if the epic is absent, then fails if
the story id is not in the epic list; the final unwrap of the global lookup
panics in the source when the referential-integrity invariant is broken,
embedded here as a distinguished error value. -/
def get_epic_story (st : DBState) (epic_id story_id : String) :
    Except String Story × DBState :=
  match AList.lookup epic_id st.epics with
  | none => (Except.error s!"Epic with id {epic_id} does not exist.", st)
  | some epic =>
      match epic.stories.find? (fun i => i == story_id) with
      | none => (Except.error s!"Story with id {story_id} does not exist.", st)
      | some sid =>
          match AList.lookup sid st.stories with
          | some story => (Except.ok story, st)
          | none => (Except.error "unwrap on a None value", st)

/-- Action enum of src/models.rs. -/
inductive Action where
  | NavigateToEpicDetail (epic_id : String)
  | NavigateToStoryDetail (epic_id : String) (story_id : String)
  | NavigateToPreviousPage
  | CreateEpic
  | UpdateEpicStatus (epic_id : String)
  | DeleteEpic (epic_id : String)
  | CreateStory (epic_id : String)
  | UpdateStoryStatus (story_id : String)
  | DeleteStory (epic_id : String) (story_id : String)
  | Exit
deriving DecidableEq, Repr

/-- HomePage::handle_input of src/ui/pages/mod.rs — reads the epics then
classifies the input; parse into String always succeeds in the source, so
the fallthrough arm only checks map membership. -/
def HomePage.handle_input (st : DBState) (input : String) :
    Except String (Option Action) × DBState :=
  match read_db st with
  | (Except.error e, st') => (Except.error e, st')
  | (Except.ok db, st') =>
      if input = "q" then (Except.ok (some Action.Exit), st')
      else if input = "c" then (Except.ok (some Action.CreateEpic), st')
      else if AList.contains input db.epics then
        (Except.ok (some (Action.NavigateToEpicDetail input)), st')
      else (Except.ok none, st')

/-- EpicDetail::handle_input of src/ui/pages/mod.rs — fetches the bound epic
via get_epic (propagating its failure) then classifies the input. -/
def EpicDetail.handle_input (epic_id : String) (st : DBState) (input : String) :
    Except String (Option Action) × DBState :=
  match get_epic st epic_id with
  | (Except.error e, st') => (Except.error e, st')
  | (Except.ok epic, st') =>
      if input = "p" then (Except.ok (some Action.NavigateToPreviousPage), st')
      else if input = "u" then (Except.ok (some (Action.UpdateEpicStatus epic_id)), st')
      else if input = "d" then (Except.ok (some (Action.DeleteEpic epic_id)), st')
      else if input = "c" then (Except.ok (some (Action.CreateStory epic_id)), st')
      else if epic.stories.contains input then
        (Except.ok (some (Action.NavigateToStoryDetail epic_id input)), st')
      else (Except.ok none, st')

/-- StoryDetail::handle_input of src/ui/pages/mod.rs — pure classification,
no database access at all. -/
def StoryDetail.handle_input (epic_id story_id : String) (st : DBState) (input : String) :
    Except String (Option Action) × DBState :=
  if input = "p" then (Except.ok (some Action.NavigateToPreviousPage), st)
  else if input = "u" then (Except.ok (some (Action.UpdateStoryStatus story_id)), st)
  else if input = "d" then (Except.ok (some (Action.DeleteStory epic_id story_id)), st)
  else (Except.ok none, st)

/-- Referential integrity, executable form: every id in every epic list is a
key of the global stories mapping. -/
def refIntegrityB (st : DBState) : Bool :=
  st.epics.all (fun p => p.2.stories.all (fun sid => AList.contains sid st.stories))

/-- Referential integrity as a proposition. -/
abbrev refIntegrity (st : DBState) : Prop :=
  refIntegrityB st = true

/-- Exclusive ownership of one story id relative to one epic id: no epic
other than epic_id lists the story id. -/
def ownedOnlyBy (st : DBState) (epic_id sid : String) : Bool :=
  st.epics.all (fun p => p.1 == epic_id || !(p.2.stories.contains sid))

/-- Result discriminator mirroring Result::is_ok. -/
def isOkB {α : Type} : Except String α → Bool
  | Except.ok _ => true
  | Except.error _ => false

/-- Modelled from the spec: the persisted-state format of section 6. The
serde derive expansion and the serde_json string layer are external to the
repository, so the structured-text document is embedded at the value level:
strings, arrays and objects. -/
inductive Json where
  | str (s : String)
  | arr (items : List Json)
  | obj (fields : List (String × Json))

/-- Modelled from the spec: Status serializes as one of the four enumerated
tags (serde externally-tagged unit variants). -/
def Status.toJson : Status → Json
  | Status.InProgress => Json.str "InProgress"
  | Status.Closed => Json.str "Closed"
  | Status.Open => Json.str "Open"
  | Status.Resolved => Json.str "Resolved"

/-- Modelled from the spec: Status deserialization, inverse of the four tags. -/
def Status.fromJson : Json → Except String Status
  | Json.str "InProgress" => Except.ok Status.InProgress
  | Json.str "Closed" => Except.ok Status.Closed
  | Json.str "Open" => Except.ok Status.Open
  | Json.str "Resolved" => Except.ok Status.Resolved
  | _ => Except.error "FormatFailure: status"

/-- Modelled from the spec: a Story serializes as the object
with name, description and status keys, in field order. -/
def Story.toJson (s : Story) : Json :=
  Json.obj [("name", Json.str s.name), ("description", Json.str s.description),
    ("status", s.status.toJson)]

/-- Modelled from the spec: Story deserialization. -/
def Story.fromJson : Json → Except String Story
  | Json.obj [("name", Json.str n), ("description", Json.str d), ("status", sj)] =>
      match Status.fromJson sj with
      | Except.ok st => Except.ok { name := n, description := d, status := st }
      | Except.error e => Except.error e
  | _ => Except.error "FormatFailure: story"

/-- Modelled from the spec: the stories field of an Epic is a sequence of id
strings. -/
def idsToJson (ids : List String) : Json :=
  Json.arr (ids.map Json.str)

/-- Modelled from the spec: decode a sequence of id strings. -/
def idsFromJsonItems : List Json → Except String (List String)
  | [] => Except.ok []
  | Json.str s :: rest =>
      match idsFromJsonItems rest with
      | Except.ok l => Except.ok (s :: l)
      | Except.error e => Except.error e
  | _ => Except.error "FormatFailure: ids"

/-- Modelled from the spec: decode the stories field of an Epic. -/
def idsFromJson : Json → Except String (List String)
  | Json.arr items => idsFromJsonItems items
  | _ => Except.error "FormatFailure: ids"

/-- Modelled from the spec: an Epic serializes as the object with name,
description, status and stories keys, in field order. -/
def Epic.toJson (e : Epic) : Json :=
  Json.obj [("name", Json.str e.name), ("description", Json.str e.description),
    ("status", e.status.toJson), ("stories", idsToJson e.stories)]

/-- Modelled from the spec: Epic deserialization. -/
def Epic.fromJson : Json → Except String Epic
  | Json.obj [("name", Json.str n), ("description", Json.str d), ("status", sj),
      ("stories", stj)] =>
      match Status.fromJson sj, idsFromJson stj with
      | Except.ok st, Except.ok ids =>
          Except.ok { name := n, description := d, status := st, stories := ids }
      | Except.error e, _ => Except.error e
      | _, Except.error e => Except.error e
  | _ => Except.error "FormatFailure: epic"

/-- Modelled from the spec: the epics mapping serializes as an object whose
fields are the id keys. -/
def epicsToJsonFields (m : AList Epic) : List (String × Json) :=
  m.map (fun p => (p.1, Epic.toJson p.2))

/-- Modelled from the spec: decode the epics mapping. -/
def epicsFromJsonFields : List (String × Json) → Except String (AList Epic)
  | [] => Except.ok []
  | (k, j) :: rest =>
      match Epic.fromJson j, epicsFromJsonFields rest with
      | Except.ok e, Except.ok m => Except.ok ((k, e) :: m)
      | Except.error msg, _ => Except.error msg
      | _, Except.error msg => Except.error msg

/-- Modelled from the spec: the stories mapping serializes as an object whose
fields are the id keys. -/
def storiesToJsonFields (m : AList Story) : List (String × Json) :=
  m.map (fun p => (p.1, Story.toJson p.2))

/-- Modelled from the spec: decode the stories mapping. -/
def storiesFromJsonFields : List (String × Json) → Except String (AList Story)
  | [] => Except.ok []
  | (k, j) :: rest =>
      match Story.fromJson j, storiesFromJsonFields rest with
      | Except.ok s, Except.ok m => Except.ok ((k, s) :: m)
      | Except.error msg, _ => Except.error msg
      | _, Except.error msg => Except.error msg

/-- Modelled from the spec: a DBState serializes as the object with epics,
stories and last_item_id keys, in struct field order. -/
def DBState.toJson (st : DBState) : Json :=
  Json.obj [("epics", Json.obj (epicsToJsonFields st.epics)),
    ("stories", Json.obj (storiesToJsonFields st.stories)),
    ("last_item_id", Json.str st.last_item_id)]

/-- Modelled from the spec: DBState deserialization. -/
def DBState.fromJson : Json → Except String DBState
  | Json.obj [("epics", Json.obj ef), ("stories", Json.obj sf),
      ("last_item_id", Json.str lid)] =>
      match epicsFromJsonFields ef, storiesFromJsonFields sf with
      | Except.ok es, Except.ok ss =>
          Except.ok { epics := es, stories := ss, last_item_id := lid }
      | Except.error e, _ => Except.error e
      | _, Except.error e => Except.error e
  | _ => Except.error "FormatFailure: state"

/-- JSONFileDatabase::write_db — serializes the state; the document written
to the path is embedded as its Json value. -/
def JSONFileDatabase.write_db (st : DBState) : Json :=
  DBState.toJson st

/-- JSONFileDatabase::read_db — deserializes the document back to a state. -/
def JSONFileDatabase.read_db (file : Json) : Except String DBState :=
  DBState.fromJson file

/-- MockDB::write_db of src/db.rs test_utils — replaces the cell content. -/
def MockDB.write_db (_cell : DBState) (st : DBState) : DBState :=
  st

/-- MockDB::read_db of src/db.rs test_utils — returns a clone of the cell. -/
def MockDB.read_db (cell : DBState) : Except String DBState :=
  Except.ok cell

namespace AList

variable {α : Type}

theorem mem_remove_iff (k : String) (m : AList α) (p : String × α) :
    p ∈ remove k m ↔ p ∈ m ∧ p.1 ≠ k := by
  induction m with
  | nil => simp [remove]
  | cons q rest ih =>
      obtain ⟨k', v⟩ := q
      by_cases hk : k' = k
      · subst hk
        rw [remove, if_pos rfl, ih]
        constructor
        · rintro ⟨hp, hne⟩
          exact ⟨List.mem_cons_of_mem _ hp, hne⟩
        · rintro ⟨hp, hne⟩
          rcases List.mem_cons.mp hp with heq | hmem
          · exact absurd (congrArg Prod.fst heq) hne
          · exact ⟨hmem, hne⟩
      · rw [remove, if_neg hk]
        constructor
        · intro hp
          rcases List.mem_cons.mp hp with heq | hmem
          · subst heq
            exact ⟨List.mem_cons_self _ _, hk⟩
          · obtain ⟨hm, hne⟩ := ih.mp hmem
            exact ⟨List.mem_cons_of_mem _ hm, hne⟩
        · rintro ⟨hp, hne⟩
          rcases List.mem_cons.mp hp with heq | hmem
          · subst heq
            exact List.mem_cons_self _ _
          · exact List.mem_cons_of_mem _ (ih.mpr ⟨hmem, hne⟩)

theorem contains_insert_self (k : String) (v : α) (m : AList α) :
    contains k (insert k v m) = true := by
  simp [contains, lookup_insert_self]

theorem contains_insert_of_contains {j : String} (k : String) (v : α) {m : AList α}
    (h : contains j m = true) : contains j (insert k v m) = true := by
  by_cases hjk : j = k
  · subst hjk
    exact contains_insert_self j v m
  · simpa [contains, lookup_insert_ne hjk] using h

theorem contains_remove_ne {j k : String} (h : j ≠ k) (m : AList α) :
    contains j (remove k m) = contains j m := by
  simp [contains, lookup_remove_ne h]

theorem contains_removeAll (ids : List String) (m : AList α) (k : String) :
    contains k (removeAll ids m) = if k ∈ ids then false else contains k m := by
  by_cases hk : k ∈ ids <;> simp [contains, lookup_removeAll, hk]

end AList

theorem refIntegrity_iff_mem (st : DBState) :
    refIntegrity st ↔
      ∀ p ∈ st.epics, ∀ sid ∈ p.2.stories, AList.contains sid st.stories = true := by
  simp [refIntegrity, refIntegrityB, List.all_eq_true]

theorem ownedOnlyBy_iff (st : DBState) (eid sid : String) :
    ownedOnlyBy st eid sid = true ↔
      ∀ p ∈ st.epics, p.1 = eid ∨ sid ∉ p.2.stories := by
  simp [ownedOnlyBy, List.all_eq_true]

theorem statusRoundtrip (s : Status) :
    Status.fromJson s.toJson = Except.ok s := by
  cases s <;> rfl

theorem storyRoundtrip (s : Story) :
    Story.fromJson s.toJson = Except.ok s := by
  obtain ⟨n, d, st⟩ := s
  simp [Story.toJson, Story.fromJson, statusRoundtrip]

theorem idsFromJsonItems_map (l : List String) :
    idsFromJsonItems (l.map Json.str) = Except.ok l := by
  induction l with
  | nil => rfl
  | cons x rest ih => simp [idsFromJsonItems, ih]

theorem idsFromJson_toJson (l : List String) :
    idsFromJson (idsToJson l) = Except.ok l := by
  simp [idsToJson, idsFromJson, idsFromJsonItems_map]

theorem epicRoundtrip (e : Epic) :
    Epic.fromJson e.toJson = Except.ok e := by
  obtain ⟨n, d, st, ids⟩ := e
  simp [Epic.toJson, Epic.fromJson, statusRoundtrip, idsFromJson_toJson]

theorem epicsFromJsonFields_toJson (m : AList Epic) :
    epicsFromJsonFields (epicsToJsonFields m) = Except.ok m := by
  induction m with
  | nil => rfl
  | cons p rest ih =>
      obtain ⟨k, e⟩ := p
      have ih' : epicsFromJsonFields (List.map (fun p => (p.1, Epic.toJson p.2)) rest) =
          Except.ok rest := by simpa [epicsToJsonFields] using ih
      simp [epicsToJsonFields, epicsFromJsonFields, epicRoundtrip, ih']

theorem storiesFromJsonFields_toJson (m : AList Story) :
    storiesFromJsonFields (storiesToJsonFields m) = Except.ok m := by
  induction m with
  | nil => rfl
  | cons p rest ih =>
      obtain ⟨k, s⟩ := p
      have ih' : storiesFromJsonFields (List.map (fun p => (p.1, Story.toJson p.2)) rest) =
          Except.ok rest := by simpa [storiesToJsonFields] using ih
      simp [storiesToJsonFields, storiesFromJsonFields, storyRoundtrip, ih']

theorem stateRoundtrip (st : DBState) :
    DBState.fromJson st.toJson = Except.ok st := by
  obtain ⟨es, ss, lid⟩ := st
  simp [DBState.toJson, DBState.fromJson, epicsFromJsonFields_toJson,
    storiesFromJsonFields_toJson]

/-- Concrete fixture: an epic owning one story. -/
def epicEx : Epic :=
  { name := "n", description := "d", status := Status.Open, stories := ["s1"] }

/-- Concrete fixture: a story. -/
def storyEx : Story :=
  { name := "sn", description := "sd", status := Status.Open }

/-- Concrete fixture: one epic referencing its one story. -/
def stateEx : DBState :=
  { epics := [("e1", epicEx)], stories := [("s1", storyEx)], last_item_id := "0" }

/-- Concrete fixture: a second story exists globally but is referenced by no
epic. -/
def stateEx2 : DBState :=
  { epics := [("e1", epicEx)], stories := [("s1", storyEx), ("s2", storyEx)],
    last_item_id := "0" }

/-- Concrete fixture: a story argument whose status is not Open. -/
def storyClosed : Story :=
  { name := "x", description := "y", status := Status.Closed }

/-- Claim C7: for every starting state, every epic argument and every
generated id, create_epic succeeds returning the id; get_epic on that id
then yields an Epic with status Open, the given name and description and an
empty stories list, and last_item_id equals the id. -/
theorem C7_create_epic_then_get (st : DBState) (epic : Epic) (id : String) :
    (create_epic st epic id).1 = Except.ok id ∧
    (get_epic (create_epic st epic id).2 id).1 =
      Except.ok
        { name := epic.name, description := epic.description,
          status := Status.Open, stories := [] } ∧
    (create_epic st epic id).2.last_item_id = id := by
  refine ⟨rfl, ?_, rfl⟩
  simp [create_epic, get_epic, Epic.new, AList.lookup_insert_self]

/-- Claim C8: persist and load round-trip — serializing any state through
the file database format and deserializing yields the original state in
every field, and the mock database read returns the last written state. -/
theorem C8_persist_roundtrip (st cell : DBState) :
    JSONFileDatabase.read_db (JSONFileDatabase.write_db st) = Except.ok st ∧
    MockDB.read_db (MockDB.write_db cell st) = Except.ok st :=
  ⟨stateRoundtrip st, rfl⟩

/-- Claim C9: input interpretation never mutates the persisted state, for
every page variant, every state and every input string. -/
theorem C9_handle_input_no_mutation (st : DBState) (epic_id story_id input : String) :
    (HomePage.handle_input st input).2 = st ∧
    (EpicDetail.handle_input epic_id st input).2 = st ∧
    (StoryDetail.handle_input epic_id story_id st input).2 = st := by
  refine ⟨?_, ?_, ?_⟩
  · simp only [HomePage.handle_input, read_db]
    split_ifs <;> rfl
  · cases he : AList.lookup epic_id st.epics with
    | none => simp [EpicDetail.handle_input, get_epic, he]
    | some epic =>
        simp only [EpicDetail.handle_input, get_epic, he]
        split_ifs <;> rfl
  · simp only [StoryDetail.handle_input]
    split_ifs <;> rfl

/-- Claim C3: create_story on an absent epic id returns an error and the
persisted state after the call is the state before it. -/
theorem C3_create_story_missing_epic (st : DBState) (story : Story) (epic_id id : String)
    (h : AList.lookup epic_id st.epics = none) :
    isOkB (create_story st story epic_id id).1 = false ∧
    (create_story st story epic_id id).2 = st := by
  simp [create_story, h, isOkB]

/-- Witness for C3 at a concrete state and missing epic id. -/
theorem C3_witness :
    AList.lookup "e9" stateEx.epics = none ∧
    isOkB (create_story stateEx storyEx "e9" "i1").1 = false ∧
    (create_story stateEx storyEx "e9" "i1").2 = stateEx := by
  have h : AList.lookup "e9" stateEx.epics = none := by decide
  have main := C3_create_story_missing_epic stateEx storyEx "e9" "i1" h
  exact ⟨h, main.1, main.2⟩

/-- Claim C10: create_story ignores the status of its Story argument — the
story actually inserted carries the argument name and description with
status Open. -/
theorem C10_create_story_ignores_status (st : DBState) (story : Story) (epic_id id : String)
    (epic : Epic) (h : AList.lookup epic_id st.epics = some epic) :
    (create_story st story epic_id id).1 = Except.ok id ∧
    AList.lookup id (create_story st story epic_id id).2.stories =
      some
        { name := story.name, description := story.description,
          status := Status.Open } := by
  simp [create_story, h, Story.new, AList.lookup_insert_self]

/-- Witness for C10 with a Closed-status story argument. -/
theorem C10_witness :
    AList.lookup "e1" stateEx.epics = some epicEx ∧
    (create_story stateEx storyClosed "e1" "i1").1 = Except.ok "i1" ∧
    AList.lookup "i1" (create_story stateEx storyClosed "e1" "i1").2.stories =
      some { name := "x", description := "y", status := Status.Open } := by
  have h : AList.lookup "e1" stateEx.epics = some epicEx := by decide
  have main := C10_create_story_ignores_status stateEx storyClosed "e1" "i1" epicEx h
  exact ⟨h, main.1, main.2⟩

/-- Claim C2: when the epic exists, delete_epic succeeds, a subsequent
get_epic on the id fails with the not-found error, every story id the epic
referenced is absent from the global stories mapping, and last_item_id
equals the epic id. -/
theorem C2_delete_epic_removes_epic_and_stories (st : DBState) (epic_id : String)
    (epic : Epic) (h : AList.lookup epic_id st.epics = some epic) :
    (delete_epic st epic_id).1 = Except.ok () ∧
    (get_epic (delete_epic st epic_id).2 epic_id).1 =
      Except.error s!"Epic with id {epic_id} does not exist." ∧
    (∀ sid ∈ epic.stories, AList.lookup sid (delete_epic st epic_id).2.stories = none) ∧
    (delete_epic st epic_id).2.last_item_id = epic_id := by
  refine ⟨?_, ?_, ?_, ?_⟩
  · simp [delete_epic, h]
  · simp [delete_epic, h, get_epic, AList.lookup_remove_self]
  · intro sid hsid
    simp [delete_epic, h, AList.lookup_removeAll, hsid]
  · simp [delete_epic, h]

/-- Witness for C2 at the concrete one-epic one-story state. -/
theorem C2_witness :
    AList.lookup "e1" stateEx.epics = some epicEx ∧
    (delete_epic stateEx "e1").1 = Except.ok () ∧
    AList.lookup "s1" (delete_epic stateEx "e1").2.stories = none ∧
    (delete_epic stateEx "e1").2.last_item_id = "e1" := by
  have h : AList.lookup "e1" stateEx.epics = some epicEx := by decide
  have main := C2_delete_epic_removes_epic_and_stories stateEx "e1" epicEx h
  exact ⟨h, main.1, main.2.2.1 "s1" (by decide), main.2.2.2⟩

/-- Claim C4: when the story exists globally and the epic exists,
delete_story succeeds; the epic survives with only the story id filtered
out of its sequence, the story id is gone from the global mapping,
last_item_id equals the story id, and every other story and epic is
untouched. -/
theorem C4_delete_story_frame (st : DBState) (epic_id story_id : String) (epic : Epic)
    (hs : AList.contains story_id st.stories = true)
    (he : AList.lookup epic_id st.epics = some epic) :
    (delete_story st epic_id story_id).1 = Except.ok () ∧
    AList.lookup epic_id (delete_story st epic_id story_id).2.epics =
      some { epic with stories := epic.stories.filter (fun i => i != story_id) } ∧
    story_id ∉ epic.stories.filter (fun i => i != story_id) ∧
    AList.lookup story_id (delete_story st epic_id story_id).2.stories = none ∧
    (delete_story st epic_id story_id).2.last_item_id = story_id ∧
    (∀ k, k ≠ story_id →
      AList.lookup k (delete_story st epic_id story_id).2.stories =
        AList.lookup k st.stories) ∧
    (∀ e, e ≠ epic_id →
      AList.lookup e (delete_story st epic_id story_id).2.epics =
        AList.lookup e st.epics) ∧
    (∀ j ∈ epic.stories, j ≠ story_id →
      j ∈ epic.stories.filter (fun i => i != story_id)) := by
  refine ⟨?_, ?_, ?_, ?_, ?_, ?_, ?_, ?_⟩
  · simp [delete_story, hs, he]
  · simp [delete_story, hs, he, AList.lookup_insert_self]
  · simp
  · simp [delete_story, hs, he, AList.lookup_remove_self]
  · simp [delete_story, hs, he]
  · intro k hk
    simp [delete_story, hs, he, AList.lookup_remove_ne hk]
  · intro e hee
    simp [delete_story, hs, he, AList.lookup_insert_ne hee]
  · intro j hj hne
    simp [List.mem_filter, hj, hne]

/-- Witness for C4 at the concrete one-epic one-story state. -/
theorem C4_witness :
    AList.contains "s1" stateEx.stories = true ∧
    AList.lookup "e1" stateEx.epics = some epicEx ∧
    (delete_story stateEx "e1" "s1").1 = Except.ok () ∧
    AList.lookup "s1" (delete_story stateEx "e1" "s1").2.stories = none ∧
    (delete_story stateEx "e1" "s1").2.last_item_id = "s1" := by
  have main := C4_delete_story_frame stateEx "e1" "s1" epicEx (by decide) (by decide)
  exact ⟨by decide, by decide, main.1, main.2.2.2.1, main.2.2.2.2.1⟩

/-- Claim C5: delete_story fails exactly when the story id is absent
globally or the epic id is absent; when both exist but the story id is not
in that epic sequence, the call still succeeds and the story id is removed
from the global mapping. -/
theorem C5_delete_story_failure_characterization (st : DBState) (epic_id story_id : String) :
    (isOkB (delete_story st epic_id story_id).1 = false ↔
      AList.contains story_id st.stories = false ∨
        AList.contains epic_id st.epics = false) ∧
    (∀ epic, AList.lookup epic_id st.epics = some epic →
      AList.contains story_id st.stories = true →
      story_id ∉ epic.stories →
      (delete_story st epic_id story_id).1 = Except.ok () ∧
      AList.lookup story_id (delete_story st epic_id story_id).2.stories = none) := by
  constructor
  · by_cases hs : AList.contains story_id st.stories = true
    · cases he : AList.lookup epic_id st.epics with
      | none =>
          have hce : AList.contains epic_id st.epics = false :=
            (AList.contains_eq_false_iff _ _).mpr he
          simp [delete_story, hs, he, isOkB, hce]
      | some epic =>
          have hce : AList.contains epic_id st.epics = true := by
            simp [AList.contains, he]
          simp [delete_story, hs, he, isOkB, hce]
    · have hs' : AList.contains story_id st.stories = false := by
        simpa using hs
      simp [delete_story, hs', isOkB]
  · intro epic he hsg _hnot
    refine ⟨?_, ?_⟩
    · simp [delete_story, hsg, he]
    · simp [delete_story, hsg, he, AList.lookup_remove_self]

/-- Witness for C5: the story exists globally but is not referenced by the
epic; the call succeeds and removes it globally. -/
theorem C5_witness :
    AList.lookup "e1" stateEx2.epics = some epicEx ∧
    AList.contains "s2" stateEx2.stories = true ∧
    "s2" ∉ epicEx.stories ∧
    (delete_story stateEx2 "e1" "s2").1 = Except.ok () ∧
    AList.lookup "s2" (delete_story stateEx2 "e1" "s2").2.stories = none := by
  have main := (C5_delete_story_failure_characterization stateEx2 "e1" "s2").2 epicEx
    (by decide) (by decide) (by decide)
  exact ⟨by decide, by decide, by decide, main.1, main.2⟩

/-- Claim C6: get_epic_story fails with the not-found error when the story
exists globally but is not referenced by the epic, and also whenever the
epic id is absent. -/
theorem C6_get_epic_story_no_leak (st : DBState) (epic_id story_id : String) :
    (∀ epic, AList.lookup epic_id st.epics = some epic →
      AList.contains story_id st.stories = true →
      story_id ∉ epic.stories →
      (get_epic_story st epic_id story_id).1 =
        Except.error s!"Story with id {story_id} does not exist.") ∧
    (AList.lookup epic_id st.epics = none →
      (get_epic_story st epic_id story_id).1 =
        Except.error s!"Epic with id {epic_id} does not exist.") := by
  constructor
  · intro epic he _hglob hnot
    have hfind : epic.stories.find? (fun i => i == story_id) = none := by
      apply List.find?_eq_none.mpr
      intro x hx
      simp only [beq_iff_eq]
      intro hxe
      exact hnot (hxe ▸ hx)
    simp [get_epic_story, he, hfind]
  · intro he
    simp [get_epic_story, he]

/-- Witness for C6: a story that exists globally but in no epic sequence. -/
theorem C6_witness :
    AList.lookup "e1" stateEx2.epics = some epicEx ∧
    AList.contains "s2" stateEx2.stories = true ∧
    "s2" ∉ epicEx.stories ∧
    (get_epic_story stateEx2 "e1" "s2").1 =
      Except.error "Story with id s2 does not exist." := by
  have main := (C6_get_epic_story_no_leak stateEx2 "e1" "s2").1 epicEx
    (by decide) (by decide) (by decide)
  exact ⟨by decide, by decide, by decide, main⟩

/-- Counterexample fixture for C1: two epics reference the same story id,
which satisfies the referential-integrity hypothesis of the claim as
stated. -/
def sharedState : DBState :=
  { epics :=
      [("e1", { name := "A", description := "", status := Status.Open, stories := ["s1"] }),
       ("e2", { name := "B", description := "", status := Status.Open, stories := ["s1"] })],
    stories := [("s1", { name := "S", description := "", status := Status.Open })],
    last_item_id := "0" }

/-- Counterexample for claim C1 as stated: sharedState satisfies
referential integrity, delete_epic on e1 completes successfully, and the
persisted state afterwards violates referential integrity because e2 still
references the removed story id. -/
theorem C1_counterexample :
    refIntegrity sharedState ∧
    isOkB (delete_epic sharedState "e1").1 = true ∧
    ¬ refIntegrity (delete_epic sharedState "e1").2 := by
  decide

/-- Claim C1 amended: referential integrity is preserved unconditionally by
create_epic, create_story, update_epic_status and update_story_status; it
is preserved by delete_epic when no story referenced by the deleted epic is
also referenced by a different epic, and by delete_story when the story id
is referenced by no epic other than the given one (the exclusive-ownership
discipline of the data model). Error completions never change the
persisted state, so they preserve it as well. -/
theorem C1_amended_integrity (st : DBState) (h : refIntegrity st) :
    (∀ epic id, refIntegrity (create_epic st epic id).2) ∧
    (∀ story epic_id id, refIntegrity (create_story st story epic_id id).2) ∧
    (∀ epic_id status, refIntegrity (update_epic_status st epic_id status).2) ∧
    (∀ story_id status, refIntegrity (update_story_status st story_id status).2) ∧
    (∀ epic_id,
      (∀ epic, AList.lookup epic_id st.epics = some epic →
        ∀ sid ∈ epic.stories, ownedOnlyBy st epic_id sid = true) →
      refIntegrity (delete_epic st epic_id).2) ∧
    (∀ epic_id story_id, ownedOnlyBy st epic_id story_id = true →
      refIntegrity (delete_story st epic_id story_id).2) := by
  have hmem := (refIntegrity_iff_mem st).mp h
  refine ⟨?_, ?_, ?_, ?_, ?_, ?_⟩
  · intro epic id
    rw [refIntegrity_iff_mem]
    intro p hp sid hsid
    have hp' : p ∈ AList.insert id (Epic.new epic.name epic.description) st.epics := hp
    rcases List.mem_cons.mp hp' with heq | hmem'
    · rw [heq] at hsid
      simp [Epic.new] at hsid
    · exact hmem p ((AList.mem_remove_iff id st.epics p).mp hmem').1 sid hsid
  · intro story epic_id id
    cases he : AList.lookup epic_id st.epics with
    | none =>
        have hst : (create_story st story epic_id id).2 = st := by
          simp [create_story, he]
        rw [hst]
        exact h
    | some epic =>
        have hst : (create_story st story epic_id id).2 =
            { st with
                last_item_id := id,
                stories := AList.insert id (Story.new story.name story.description) st.stories,
                epics := AList.insert epic_id
                  { epic with stories := epic.stories ++ [id] } st.epics } := by
          simp [create_story, he]
        rw [refIntegrity_iff_mem, hst]
        intro p hp sid hsid
        rcases List.mem_cons.mp hp with heq | hmem'
        · rw [heq] at hsid
          rcases List.mem_append.mp hsid with hold | hnew
          · exact AList.contains_insert_of_contains id _
              (hmem (epic_id, epic) (AList.lookup_mem he) sid hold)
          · have hsi : sid = id := by simpa using hnew
            rw [hsi]
            exact AList.contains_insert_self id _ st.stories
        · exact AList.contains_insert_of_contains id _
            (hmem p ((AList.mem_remove_iff epic_id st.epics p).mp hmem').1 sid hsid)
  · intro epic_id status
    cases he : AList.lookup epic_id st.epics with
    | none =>
        have hst : (update_epic_status st epic_id status).2 = st := by
          simp [update_epic_status, he]
        rw [hst]
        exact h
    | some epic =>
        have hst : (update_epic_status st epic_id status).2 =
            { st with
                epics := AList.insert epic_id { epic with status := status } st.epics } := by
          simp [update_epic_status, he]
        rw [refIntegrity_iff_mem, hst]
        intro p hp sid hsid
        rcases List.mem_cons.mp hp with heq | hmem'
        · rw [heq] at hsid
          exact hmem (epic_id, epic) (AList.lookup_mem he) sid hsid
        · exact hmem p ((AList.mem_remove_iff epic_id st.epics p).mp hmem').1 sid hsid
  · intro story_id status
    cases hsto : AList.lookup story_id st.stories with
    | none =>
        have hst : (update_story_status st story_id status).2 = st := by
          simp [update_story_status, hsto]
        rw [hst]
        exact h
    | some story =>
        have hst : (update_story_status st story_id status).2 =
            { st with
                stories := AList.insert story_id
                  { story with status := status } st.stories } := by
          simp [update_story_status, hsto]
        rw [refIntegrity_iff_mem, hst]
        intro p hp sid hsid
        exact AList.contains_insert_of_contains story_id _ (hmem p hp sid hsid)
  · intro epic_id hown
    cases he : AList.lookup epic_id st.epics with
    | none =>
        have hst : (delete_epic st epic_id).2 = st := by
          simp [delete_epic, he]
        rw [hst]
        exact h
    | some epic =>
        have hst : (delete_epic st epic_id).2 =
            { st with
                stories := AList.removeAll epic.stories st.stories,
                epics := AList.remove epic_id st.epics,
                last_item_id := epic_id } := by
          simp [delete_epic, he]
        rw [refIntegrity_iff_mem, hst]
        intro p hp sid hsid
        obtain ⟨hpmem, hpne⟩ := (AList.mem_remove_iff epic_id st.epics p).mp hp
        have hcon : AList.contains sid st.stories = true := hmem p hpmem sid hsid
        have hnotin : sid ∉ epic.stories := by
          intro hin
          rcases (ownedOnlyBy_iff st epic_id sid).mp (hown epic he sid hin) p hpmem with
            h1 | h2
          · exact hpne h1
          · exact h2 hsid
        simp [AList.contains_removeAll, hnotin, hcon]
  · intro epic_id story_id hown
    by_cases hs : AList.contains story_id st.stories = true
    · cases he : AList.lookup epic_id st.epics with
      | none =>
          have hst : (delete_story st epic_id story_id).2 = st := by
            simp [delete_story, hs, he]
          rw [hst]
          exact h
      | some epic =>
          have hst : (delete_story st epic_id story_id).2 =
              { st with
                  epics := AList.insert epic_id
                    { epic with stories := epic.stories.filter (fun i => i != story_id) }
                    st.epics,
                  stories := AList.remove story_id st.stories,
                  last_item_id := story_id } := by
            simp [delete_story, hs, he]
          rw [refIntegrity_iff_mem, hst]
          intro p hp sid hsid
          rcases List.mem_cons.mp hp with heq | hmem'
          · rw [heq] at hsid
            have hmemf := List.mem_filter.mp hsid
            have hne : sid ≠ story_id := by simpa using hmemf.2
            have hcon := hmem (epic_id, epic) (AList.lookup_mem he) sid hmemf.1
            simpa [AList.contains_remove_ne hne] using hcon
          · obtain ⟨hpmem, hpne⟩ := (AList.mem_remove_iff epic_id st.epics p).mp hmem'
            have hcon := hmem p hpmem sid hsid
            have hne : sid ≠ story_id := by
              intro heq2
              rcases (ownedOnlyBy_iff st epic_id story_id).mp hown p hpmem with h1 | h2
              · exact hpne h1
              · exact h2 (heq2 ▸ hsid)
            simpa [AList.contains_remove_ne hne] using hcon
    · have hs' : AList.contains story_id st.stories = false := by
        simpa using hs
      have hst : (delete_story st epic_id story_id).2 = st := by
        simp [delete_story, hs']
      rw [hst]
      exact h

/-- Witness for the amended C1 at the concrete one-epic one-story state,
discharging the integrity and exclusive-ownership hypotheses. -/
theorem C1_amended_witness :
    refIntegrity stateEx ∧
    ownedOnlyBy stateEx "e1" "s1" = true ∧
    refIntegrity (delete_story stateEx "e1" "s1").2 := by
  have main := C1_amended_integrity stateEx (by decide)
  exact ⟨by decide, by decide, main.2.2.2.2.2 "e1" "s1" (by decide)⟩

end Jira
